import Mathlib

/-!
# Verification of the qualichat aggregation engine

A shallow embedding of the aggregation logic of `qualichat/features.py`:
the weekday / month / actor bucketers, the per-bucket row reducers, the
interaction-interval classifier, and the actor-scoped Top-N ranking, together
with theorems settling the specification's claims about them.

Python machine types are modelled as follows: `datetime.datetime` becomes a
record of calendar components with a rational seconds field (so fractional
deltas such as 30.1 s are expressible); `str` stays `String`; lists stay
`List`; `dict` grouping (insertion-ordered keys) is modelled by a fold that
appends a key the first time it is seen plus a per-key filter.
-/

/-- `get_length` from features.py: `len(''.join(obj))`, the summed character
length of a counter's matched substrings. -/
def get_length (obj : List String) : Nat := (String.join obj).length

/-- The `WEEKDAYS` constant from features.py, Sunday first. -/
def WEEKDAYS : List String :=
  ["Sunday", "Monday", "Tuesday", "Wednesday", "Thursday", "Friday", "Saturday"]

/-- Gregorian leap-year rule, as used by Python's `datetime` module. -/
def isLeap (y : Nat) : Bool :=
  y % 4 == 0 && (y % 100 != 0 || y % 400 == 0)

/-- Days in month `m` of year `y` (proleptic Gregorian calendar). -/
def daysInMonth (y m : Nat) : Nat :=
  if m = 2 then (if isLeap y then 29 else 28)
  else if m = 4 ∨ m = 6 ∨ m = 9 ∨ m = 11 then 30
  else 31

/-- Days in year `y` before the first day of month `m`. -/
def daysBeforeMonth (y m : Nat) : Nat :=
  ((List.range' 1 (m - 1)).map (daysInMonth y)).sum

/-- Python's `date.toordinal()`: day count with 0001-01-01 as ordinal 1. -/
def toOrdinal (y m d : Nat) : Nat :=
  365 * (y - 1) + (y - 1) / 4 + (y - 1) / 400 - (y - 1) / 100
    + daysBeforeMonth y m + d

/-- A Python `datetime.datetime`: calendar components, with fractional
seconds folded into the rational `second` field. -/
structure DateTime where
  year : Nat
  month : Nat
  day : Nat
  hour : Nat
  minute : Nat
  second : ℚ
deriving DecidableEq, Repr

/-- Python `datetime` comparison: lexicographic on the components, which is
chronological order for calendar dates. -/
def DateTime.le (a b : DateTime) : Prop :=
  a.year < b.year ∨ (a.year = b.year ∧
    (a.month < b.month ∨ (a.month = b.month ∧
      (a.day < b.day ∨ (a.day = b.day ∧
        (a.hour < b.hour ∨ (a.hour = b.hour ∧
          (a.minute < b.minute ∨ (a.minute = b.minute ∧
            a.second ≤ b.second)))))))))

instance (a b : DateTime) : Decidable (DateTime.le a b) := by
  unfold DateTime.le; infer_instance

/-- Absolute time of a datetime in seconds, so that
`(a - b).total_seconds()` is `a.toSeconds - b.toSeconds`. -/
def DateTime.toSeconds (t : DateTime) : ℚ :=
  86400 * (toOrdinal t.year t.month t.day : ℚ)
    + 3600 * (t.hour : ℚ) + 60 * (t.minute : ℚ) + t.second

/-- Python `date.weekday()` (Monday = 0); ordinal 1 (0001-01-01) is a
Monday, so the weekday index is `(ordinal - 1) % 7`, written with `+ 6` to
stay in `Nat`. -/
def DateTime.pyWeekday (t : DateTime) : Nat :=
  (toOrdinal t.year t.month t.day + 6) % 7

/-- `created_at.strftime('%A')`: the weekday name used as a bucket key. -/
def DateTime.weekdayName (t : DateTime) : String :=
  match t.pyWeekday with
  | 0 => "Monday"
  | 1 => "Tuesday"
  | 2 => "Wednesday"
  | 3 => "Thursday"
  | 4 => "Friday"
  | 5 => "Saturday"
  | _ => "Sunday"

/-- The message-bucket key `strftime('%B %Y')` of the month aggregations.
For Python datetimes (month always 1..12) that label is determined by, and
determines, the `(year, month)` pair, so buckets are keyed by that pair;
the `replace(day=1, hour=0, minute=0, second=0)` the source applies first
does not change year or month. -/
def monthKey (t : DateTime) : Nat × Nat := (t.year, t.month)

/-- A chat message, restricted to the fields the verified aggregations
read: its timestamp, the identity (display name) of its sending actor, the
string-valued counters `Qty_char_net` / `Qty_char_text`, and the
match-list counters used by the fabrications aggregation. -/
structure Message where
  created_at : DateTime
  actor : String
  qty_char_net : String
  qty_char_text : String
  qty_char_laughs : List String
  qty_char_marks : List String
  qty_char_emoji : List String
  qty_char_numbers : List String
deriving DecidableEq, Repr

/-- A chat actor: display name plus the actor's own message subsequence. -/
structure Actor where
  display_name : String
  messages : List Message
deriving DecidableEq, Repr

/-- A chat: the full chronological message list plus the actor list. -/
structure Chat where
  messages : List Message
  actors : List Actor
deriving DecidableEq, Repr

/-- Key list of a Python dict built by insertion: each key appears once, in
first-seen order. -/
def firstSeen {α : Type} [DecidableEq α] (l : List α) : List α :=
  l.foldl (fun acc a => if a ∈ acc then acc else acc ++ [a]) []

/-- The `defaultdict(list)` grouping pattern of features.py: bucket keys in
first-seen order, each bucket holding the messages with that key in
original order. -/
def groupBy {α κ : Type} [DecidableEq κ] (key : α → κ) (l : List α) :
    List (κ × List α) :=
  (firstSeen (l.map key)).map (fun k => (k, l.filter (fun a => decide (key a = k))))

/-- The row reducer shared by `MessagesFeature.per_month` and
`MessagesFeature.per_weekday`:
`[Qty_char_net, Qty_char_text, Qty_messages]`. -/
def messagesRow (msgs : List Message) : List Nat :=
  [ (msgs.map (fun m => m.qty_char_net.length)).sum,
    (msgs.map (fun m => m.qty_char_text.length)).sum,
    msgs.length ]

/-- `MessagesFeature.per_month`: group the chat's messages by month label
(first-seen order) and reduce each bucket. -/
def MessagesFeature.per_month (chat : Chat) : List ((Nat × Nat) × List Nat) :=
  (groupBy (fun m => monthKey m.created_at) chat.messages).map
    (fun p => (p.1, messagesRow p.2))

/-- `MessagesFeature.per_weekday`: the bucket dict is pre-seeded with the
seven `WEEKDAYS` keys (`{w: [] for w in WEEKDAYS}`), so the rows are the
seven weekday buckets in Sunday-first order. -/
def MessagesFeature.per_weekday (chat : Chat) : List (String × List Nat) :=
  WEEKDAYS.map (fun w =>
    (w, messagesRow (chat.messages.filter
      (fun m => decide (m.created_at.weekdayName = w)))))

/-- The interval classification of one delta (in seconds), from the
`if seconds <= 30 / elif 30 < seconds <= 60 / elif 60 < seconds <= 120 /
else` chain shared by `TimeFeature.get_interation_timings` and
`ActorsFeature.interaction_interval`:
0 = super fast, 1 = fast, 2 = regular, 3 = late. -/
def classifySeconds (seconds : ℚ) : Nat :=
  if seconds ≤ 30 then 0
  else if 30 < seconds ∧ seconds ≤ 60 then 1
  else if 60 < seconds ∧ seconds ≤ 120 then 2
  else 3

/-- The consecutive pairs visited by
`for i, message in enumerate(messages[1:]): previous = messages[i]`:
the i-th pair is `(messages[i], messages[i+1])`. -/
def adjacentPairs (messages : List Message) : List (Message × Message) :=
  messages.zip messages.tail

/-- The delta `(message.created_at - previous.created_at).total_seconds()`
of a `(previous, message)` pair. -/
def pairDelta (p : Message × Message) : ℚ :=
  p.2.created_at.toSeconds - p.1.created_at.toSeconds

/-- `TimeFeature.get_interation_timings`: classify every consecutive delta
and return the four class counts. -/
def TimeFeature.get_interation_timings (messages : List Message) : List Nat :=
  [ ((adjacentPairs messages).map pairDelta).countP (fun s => classifySeconds s == 0),
    ((adjacentPairs messages).map pairDelta).countP (fun s => classifySeconds s == 1),
    ((adjacentPairs messages).map pairDelta).countP (fun s => classifySeconds s == 2),
    ((adjacentPairs messages).map pairDelta).countP (fun s => classifySeconds s == 3) ]

/-- `TimeFeature.interaction_interval`: month-bucketed interval counts,
each row `get_interation_timings(bucket) + [len(bucket)]`. -/
def TimeFeature.interaction_interval (chat : Chat) :
    List ((Nat × Nat) × List Nat) :=
  (groupBy (fun m => monthKey m.created_at) chat.messages).map
    (fun p => (p.1, TimeFeature.get_interation_timings p.2 ++ [p.2.length]))

/-- The per-actor loop body of `ActorsFeature.interaction_interval`: walk
the consecutive pairs of the FULL chat message list, skip pairs whose
second message is not by this actor (`if message.actor != actor:
continue`), and classify the delta against `previous = chat.messages[i]` —
the wall-clock-adjacent previous message, whoever sent it. -/
def ActorsFeature.interactionCounts (msgs : List Message) (actor : String) :
    List Nat :=
  [ (((adjacentPairs msgs).filter (fun p => decide (p.2.actor = actor))).map pairDelta).countP
      (fun s => classifySeconds s == 0),
    (((adjacentPairs msgs).filter (fun p => decide (p.2.actor = actor))).map pairDelta).countP
      (fun s => classifySeconds s == 1),
    (((adjacentPairs msgs).filter (fun p => decide (p.2.actor = actor))).map pairDelta).countP
      (fun s => classifySeconds s == 2),
    (((adjacentPairs msgs).filter (fun p => decide (p.2.actor = actor))).map pairDelta).countP
      (fun s => classifySeconds s == 3) ]

/-- The pre-ranking table of `ActorsFeature.interaction_interval`: one row
per actor, `counts + [len(actor.messages)]`. -/
def ActorsFeature.interaction_interval_table (chat : Chat) :
    List (String × List Nat) :=
  chat.actors.map (fun a =>
    (a.display_name,
      ActorsFeature.interactionCounts chat.messages a.display_name
        ++ [a.messages.length]))

/-- Modelled from the spec (section 4.2): the actor-sequence-local interval
counts the spec describes — restrict the chat to the actor's own messages,
then classify the consecutive deltas of that filtered subsequence.  The
source computes something else; this definition exists to be compared with
`ActorsFeature.interactionCounts`. -/
def spec_actor_local_interval_counts (msgs : List Message) (actor : String) :
    List Nat :=
  TimeFeature.get_interation_timings
    (msgs.filter (fun m => decide (m.actor = actor)))

/-- The column names of `ActorsFeature.fabrications`, in source order. -/
def ActorsFeature.fabrications_columns : List String :=
  ["Qty_char_numbers", "Qty_char_emoji", "Qty_char_marks", "Qty_char_laughs",
   "Qty_messages"]

/-- The row `ActorsFeature.fabrications` appends for one actor, in the
source's append order:
`[numbers, laughs, marks, emojis, len(actor.messages)]` (note: this order
differs from `fabrications_columns`). -/
def ActorsFeature.fabricationsRow (a : Actor) : List Nat :=
  [ (a.messages.map (fun m => get_length m.qty_char_numbers)).sum,
    (a.messages.map (fun m => get_length m.qty_char_laughs)).sum,
    (a.messages.map (fun m => get_length m.qty_char_marks)).sum,
    (a.messages.map (fun m => get_length m.qty_char_emoji)).sum,
    a.messages.length ]

/-- The cell of a table row under a named column: the row entry at the
column's position in the column list. -/
def cell (columns : List String) (row : List Nat) (c : String) : Option Nat :=
  row[columns.indexOf c]?

/-- The row of `ActorsFeature.by_activity` for one actor:
`[Qty_char_net, Qty_char_text, Qty_messages]`. -/
def ActorsFeature.activityRow (a : Actor) : List Nat :=
  [ (a.messages.map (fun m => m.qty_char_net.length)).sum,
    (a.messages.map (fun m => m.qty_char_text.length)).sum,
    a.messages.length ]

/-- The unsorted table of `ActorsFeature.by_activity`: actor display names
as index, activity rows as values. -/
def ActorsFeature.by_activity_table (chat : Chat) : List (String × List Nat) :=
  chat.actors.map (fun a => (a.display_name, ActorsFeature.activityRow a))

/-- Descending lexicographic comparison of rows, the order produced by
`sort_values(by=columns, ascending=False)`: earlier columns decide first,
later columns break ties. -/
def rowGe : List Nat → List Nat → Bool
  | _, [] => true
  | [], _ :: _ => false
  | a :: as, b :: bs => if b < a then true else if a < b then false else rowGe as bs

/-- The row order used to rank actor tables: compare the numeric row parts
of two (index, row) pairs with `rowGe`. -/
def RowOrder (x y : String × List Nat) : Prop := rowGe x.2 y.2 = true

instance : DecidableRel RowOrder := fun x y => by
  unfold RowOrder; infer_instance

/-- Python's slice-index normalization: negative indices count from the
end, and out-of-range values clamp to the bounds instead of erroring. -/
def pyIndex (n : Nat) (i : Int) : Nat :=
  if i < 0 then (i + n).toNat else min i.toNat n

/-- Python's `l[start:stop]` positional slice. -/
def pySlice {α : Type} (l : List α) (start stop : Int) : List α :=
  (l.take (pyIndex l.length stop)).drop (pyIndex l.length start)

/-- `ActorsFeature.by_activity`: sort the actor table descending by the
full column tuple (`sort_values(by=columns, ascending=False)`, modelled by
a deterministic sort under `RowOrder`) and take the `[start:end]` slice. -/
def ActorsFeature.by_activity (chat : Chat) (start stop : Int) :
    List (String × List Nat) :=
  pySlice (List.insertionSort RowOrder (ActorsFeature.by_activity_table chat))
    start stop

/-- `self.chats[0]` of each feature method: the feature reads only the
first loaded chat; an empty chat list has no result (Python raises
`IndexError`). -/
def MessagesFeature.per_month_feature (chats : List Chat) :
    Option (List ((Nat × Nat) × List Nat)) :=
  chats.head?.map MessagesFeature.per_month

/-- List-of-chats entry point of `MessagesFeature.per_weekday`. -/
def MessagesFeature.per_weekday_feature (chats : List Chat) :
    Option (List (String × List Nat)) :=
  chats.head?.map MessagesFeature.per_weekday

/-- List-of-chats entry point of `TimeFeature.interaction_interval`. -/
def TimeFeature.interaction_interval_feature (chats : List Chat) :
    Option (List ((Nat × Nat) × List Nat)) :=
  chats.head?.map TimeFeature.interaction_interval

/-- List-of-chats entry point of `ActorsFeature.interaction_interval`. -/
def ActorsFeature.interaction_interval_feature (chats : List Chat) :
    Option (List (String × List Nat)) :=
  chats.head?.map ActorsFeature.interaction_interval_table

/-- List-of-chats entry point of `ActorsFeature.by_activity`. -/
def ActorsFeature.by_activity_feature (chats : List Chat) (start stop : Int) :
    Option (List (String × List Nat)) :=
  chats.head?.map (fun c => ActorsFeature.by_activity c start stop)

/-- List-of-chats entry point of `ActorsFeature.fabrications` (the part the
claims test: the per-actor rows, before ranking). -/
def ActorsFeature.fabrications_feature (chats : List Chat) :
    Option (List (String × List Nat)) :=
  chats.head?.map (fun c =>
    c.actors.map (fun a => (a.display_name, ActorsFeature.fabricationsRow a)))

/-- "Chronologically ordered": every message's timestamp is less than or
equal to every later message's timestamp. -/
def Chrono (msgs : List Message) : Prop :=
  List.Pairwise (fun a b => DateTime.le a.created_at b.created_at) msgs

instance (msgs : List Message) : Decidable (Chrono msgs) := by
  unfold Chrono; infer_instance

/-- Lexicographic (chronological) strict order on `(year, month)` keys. -/
def pairLt (a b : Nat × Nat) : Prop := a.1 < b.1 ∨ (a.1 = b.1 ∧ a.2 < b.2)

/-- Lexicographic (chronological) order on `(year, month)` keys. -/
def pairLe (a b : Nat × Nat) : Prop := a.1 < b.1 ∨ (a.1 = b.1 ∧ a.2 ≤ b.2)

/-- Position-level test of the wall-clock-adjacent message pair at index
i: applies p to `(msgs[i], msgs[i+1])`, false past the end of the list. -/
def adjPred (msgs : List Message) (p : Message × Message → Bool) (i : Nat) :
    Bool :=
  match msgs[i]?, msgs[i + 1]? with
  | some a, some b => p (a, b)
  | _, _ => false

/-- Modelled from the amended claim C1: for each speed class, count the
positions i such that the message at position i+1 is by the given actor
and the delta from the wall-clock-adjacent previous message — the one at
position i, by whichever actor — falls in the class.  Used as an
index-level restatement of what `ActorsFeature.interactionCounts`
computes. -/
def spec_wall_clock_interval_counts (msgs : List Message) (actor : String) :
    List Nat :=
  [ ((List.range (msgs.length - 1)).filter (adjPred msgs fun pr =>
      (classifySeconds (pairDelta pr) == 0) && decide (pr.2.actor = actor))).length,
    ((List.range (msgs.length - 1)).filter (adjPred msgs fun pr =>
      (classifySeconds (pairDelta pr) == 1) && decide (pr.2.actor = actor))).length,
    ((List.range (msgs.length - 1)).filter (adjPred msgs fun pr =>
      (classifySeconds (pairDelta pr) == 2) && decide (pr.2.actor = actor))).length,
    ((List.range (msgs.length - 1)).filter (adjPred msgs fun pr =>
      (classifySeconds (pairDelta pr) == 3) && decide (pr.2.actor = actor))).length ]

/-- A message with only the fields of interest set; `second` is the
timestamp's second within 0001-01-01 09:00. -/
def mkMsg (s : ℚ) (a : String) (net text : String) : Message :=
  { created_at := ⟨1, 1, 1, 9, 0, s⟩, actor := a,
    qty_char_net := net, qty_char_text := text,
    qty_char_laughs := [], qty_char_marks := [],
    qty_char_emoji := [], qty_char_numbers := [] }

/-- C1 counterexample chat sequence: actor A at 0 s, actor B at 40 s,
actor A again at 50 s. -/
def c1msgs : List Message :=
  [mkMsg 0 "A" "" "", mkMsg 40 "B" "" "", mkMsg 50 "A" "" ""]

/-- C2 failing input: an actor with a single message holding one emoji
match of length 1 and no laugh matches. -/
def c2actor : Actor :=
  ⟨"A", [{ created_at := ⟨2021, 5, 3, 9, 0, 0⟩, actor := "A",
           qty_char_net := "", qty_char_text := "",
           qty_char_laughs := [], qty_char_marks := [],
           qty_char_emoji := ["e"], qty_char_numbers := [] }]⟩

/-- Two messages of the same month bucket 100 s apart, for the C7
counterexample. -/
def c7m1 : Message := mkMsg 0 "A" "" ""

/-- Second C7 message, 100 s after `c7m1`, same month bucket. -/
def c7m2 : Message := mkMsg 100 "A" "" ""

/-- A two-message chronological chat used by witnesses: 25 s apart. -/
def wMsgA : Message := mkMsg 0 "A" "abcde" "abc"

/-- Second witness message, 25 s after `wMsgA`. -/
def wMsgB : Message := mkMsg 25 "A" "abc" "ab"

/-- Witness chat for the month-ordering claim: one message in January and
one in March of year 2021, chronological. -/
def w6chat : Chat :=
  ⟨[{ created_at := ⟨2021, 1, 5, 9, 0, 0⟩, actor := "A",
      qty_char_net := "", qty_char_text := "",
      qty_char_laughs := [], qty_char_marks := [],
      qty_char_emoji := [], qty_char_numbers := [] },
    { created_at := ⟨2021, 3, 6, 9, 0, 0⟩, actor := "A",
      qty_char_net := "", qty_char_text := "",
      qty_char_laughs := [], qty_char_marks := [],
      qty_char_emoji := [], qty_char_numbers := [] }], []⟩

/-- Witness chat for the ranking claim: two actors with distinct activity. -/
def w9chat : Chat :=
  ⟨[], [⟨"A", [wMsgA]⟩, ⟨"B", [wMsgA, wMsgB]⟩]⟩

/-! ## Helper lemmas -/

theorem classify_cases (s : ℚ) :
    classifySeconds s = 0 ∨ classifySeconds s = 1 ∨ classifySeconds s = 2 ∨
    classifySeconds s = 3 := by
  unfold classifySeconds
  split_ifs <;> simp

theorem countP_classify_sum (ds : List ℚ) :
    ds.countP (fun s => classifySeconds s == 0)
      + ds.countP (fun s => classifySeconds s == 1)
      + ds.countP (fun s => classifySeconds s == 2)
      + ds.countP (fun s => classifySeconds s == 3) = ds.length := by
  induction ds with
  | nil => simp
  | cons d ds ih =>
    simp only [List.countP_cons, List.length_cons]
    rcases classify_cases d with h | h | h | h <;> simp [h] <;> omega

theorem classifySeconds_iff (s : ℚ) :
    (classifySeconds s = 0 ↔ s ≤ 30) ∧
    (classifySeconds s = 1 ↔ 30 < s ∧ s ≤ 60) ∧
    (classifySeconds s = 2 ↔ 60 < s ∧ s ≤ 120) ∧
    (classifySeconds s = 3 ↔ 120 < s) := by
  unfold classifySeconds
  split_ifs with h1 h2 h3 <;> refine ⟨?_, ?_, ?_, ?_⟩ <;> simp_all <;>
    first | linarith | (constructor <;> intro <;> linarith) | (intro <;> linarith)

theorem monthKey_mono {a b : DateTime} (h : DateTime.le a b) :
    pairLe (monthKey a) (monthKey b) := by
  unfold DateTime.le at h
  unfold pairLe monthKey
  rcases h with h | ⟨hy, h⟩
  · exact Or.inl h
  · rcases h with h | ⟨hm, _⟩
    · exact Or.inr ⟨hy, le_of_lt h⟩
    · exact Or.inr ⟨hy, le_of_eq hm⟩

theorem pairLe_ne_lt {a b : Nat × Nat} (h : pairLe a b) (hne : a ≠ b) :
    pairLt a b := by
  rcases a with ⟨a1, a2⟩
  rcases b with ⟨b1, b2⟩
  have hne2 : ¬(a1 = b1 ∧ a2 = b2) := fun hh => hne (by rw [hh.1, hh.2])
  unfold pairLe at h
  unfold pairLt
  simp only at h hne2 ⊢
  omega

theorem pairwise_firstSeen_aux {α : Type} [DecidableEq α] {le lt : α → α → Prop}
    (hlt : ∀ a b, le a b → a ≠ b → lt a b) :
    ∀ (l acc : List α), List.Pairwise lt acc → List.Pairwise le l →
      (∀ x ∈ l, ∀ y ∈ acc, le y x) →
      List.Pairwise lt
        (l.foldl (fun acc a => if a ∈ acc then acc else acc ++ [a]) acc)
  | [], acc, hacc, _, _ => by rw [List.foldl_nil]; exact hacc
  | a :: l, acc, hacc, hl, hcross => by
    rw [List.foldl_cons]
    by_cases hmem : a ∈ acc
    · rw [if_pos hmem]
      exact pairwise_firstSeen_aux hlt l acc hacc hl.tail
        (fun x hx y hy => hcross x (List.mem_cons_of_mem a hx) y hy)
    · rw [if_neg hmem]
      apply pairwise_firstSeen_aux hlt l (acc ++ [a])
      · refine List.pairwise_append.mpr ⟨hacc, (by simp : List.Pairwise lt [a]), ?_⟩
        intro y hy b hb
        rw [List.mem_singleton] at hb
        rw [hb]
        exact hlt y a (hcross a (List.mem_cons_self a l) y hy)
          (fun hyb => hmem (hyb ▸ hy))
      · exact hl.tail
      · intro x hx y hy
        rcases List.mem_append.mp hy with hy | hy
        · exact hcross x (List.mem_cons_of_mem a hx) y hy
        · rw [List.mem_singleton] at hy
          subst hy
          exact (List.pairwise_cons.mp hl).1 x hx

theorem pairwise_lt_firstSeen {α : Type} [DecidableEq α] {le lt : α → α → Prop}
    (hlt : ∀ a b, le a b → a ≠ b → lt a b) (l : List α)
    (hl : List.Pairwise le l) : List.Pairwise lt (firstSeen l) :=
  pairwise_firstSeen_aux hlt l [] (List.Pairwise.nil) hl (by simp)

theorem length_filter_range_succ (q : Nat → Bool) (n : Nat) :
    (List.filter q (List.range (n + 1))).length
      = (if q 0 then 1 else 0)
        + (List.filter (fun i => q (i + 1)) (List.range n)).length := by
  rw [List.range_succ_eq_map, List.filter_cons, List.filter_map]
  simp only [Function.comp_def, Nat.succ_eq_add_one]
  by_cases h : q 0 <;> simp [h] <;> omega

theorem countP_adjacentPairs (p : Message × Message → Bool) :
    ∀ msgs : List Message,
      (adjacentPairs msgs).countP p =
        ((List.range (msgs.length - 1)).filter (adjPred msgs p)).length
  | [] => by simp [adjacentPairs]
  | [m] => by simp [adjacentPairs]
  | m1 :: m2 :: t => by
    have ih := countP_adjacentPairs p (m2 :: t)
    simp only [adjacentPairs, List.tail_cons, List.zip_cons_cons,
      List.countP_cons, List.length_cons, Nat.add_sub_cancel] at ih ⊢
    rw [ih, length_filter_range_succ]
    have h0 : adjPred (m1 :: m2 :: t) p 0 = p (m1, m2) := by simp [adjPred]
    have hs : (List.filter (fun i => adjPred (m1 :: m2 :: t) p (i + 1))
          (List.range t.length)).length
        = (List.filter (adjPred (m2 :: t) p) (List.range t.length)).length := by
      apply congrArg List.length
      apply List.filter_congr
      intro i _
      simp [adjPred]
    rw [h0, hs]
    by_cases hp : p (m1, m2) <;> simp [hp] <;> omega

theorem rowGe_total (r s : List Nat) : rowGe r s = true ∨ rowGe s r = true := by
  induction r generalizing s with
  | nil =>
    cases s with
    | nil => exact Or.inl rfl
    | cons b bs => exact Or.inr rfl
  | cons a as ih =>
    cases s with
    | nil => exact Or.inl rfl
    | cons b bs =>
      rcases Nat.lt_trichotomy a b with h | h | h
      · right; simp [rowGe, h]
      · subst h
        rcases ih bs with h2 | h2
        · left; simp [rowGe, h2]
        · right; simp [rowGe, h2]
      · left; simp [rowGe, h]

theorem rowGe_trans (r s t : List Nat) (h1 : rowGe r s = true)
    (h2 : rowGe s t = true) : rowGe r t = true := by
  induction r generalizing s t with
  | nil =>
    cases s with
    | nil => exact h2
    | cons b bs => simp [rowGe] at h1
  | cons a as ih =>
    cases t with
    | nil => simp [rowGe]
    | cons c cs =>
      cases s with
      | nil => simp [rowGe] at h2
      | cons b bs =>
        simp only [rowGe] at h1 h2 ⊢
        rcases Nat.lt_trichotomy b a with hba | hba | hba
        · rcases Nat.lt_trichotomy c b with hcb | hcb | hcb
          · have hca : c < a := Nat.lt_trans hcb hba
            simp [hca]
          · subst hcb
            simp [hba]
          · rw [if_neg (Nat.lt_asymm hcb), if_pos hcb] at h2
            exact absurd h2 (by simp)
        · subst hba
          rw [if_neg (lt_irrefl b), if_neg (lt_irrefl b)] at h1
          rcases Nat.lt_trichotomy c b with hcb | hcb | hcb
          · simp [hcb]
          · subst hcb
            rw [if_neg (lt_irrefl c), if_neg (lt_irrefl c)] at h2 ⊢
            exact ih bs cs h1 h2
          · rw [if_neg (Nat.lt_asymm hcb), if_pos hcb] at h2
            exact absurd h2 (by simp)
        · rw [if_neg (Nat.lt_asymm hba), if_pos hba] at h1
          exact absurd h1 (by simp)

instance : IsTotal (String × List Nat) RowOrder :=
  ⟨fun x y => rowGe_total x.2 y.2⟩

instance : IsTrans (String × List Nat) RowOrder :=
  ⟨fun x y z h1 h2 => rowGe_trans x.2 y.2 z.2 h1 h2⟩

/-! ## Claim theorems -/

/-- C3: the interval classifier uses half-open boundaries: a delta of
exactly 30 s is super-fast, of 30.1 s fast, of exactly 60 s fast, of
exactly 120 s regular, of 120.1 s late; in general the classes are
`(-inf, 30]`, `(30, 60]`, `(60, 120]`, `(120, inf)`, and on a two-message
list the four counts are the unit vector of the classified delta. -/
theorem claim_C3 :
    classifySeconds 30 = 0 ∧ classifySeconds (301/10) = 1 ∧
    classifySeconds 60 = 1 ∧ classifySeconds 120 = 2 ∧
    classifySeconds (1201/10) = 3 ∧
    (∀ s : ℚ,
      (classifySeconds s = 0 ↔ s ≤ 30) ∧
      (classifySeconds s = 1 ↔ 30 < s ∧ s ≤ 60) ∧
      (classifySeconds s = 2 ↔ 60 < s ∧ s ≤ 120) ∧
      (classifySeconds s = 3 ↔ 120 < s)) ∧
    (∀ m1 m2 : Message,
      TimeFeature.get_interation_timings [m1, m2] =
        [if classifySeconds (pairDelta (m1, m2)) = 0 then 1 else 0,
         if classifySeconds (pairDelta (m1, m2)) = 1 then 1 else 0,
         if classifySeconds (pairDelta (m1, m2)) = 2 then 1 else 0,
         if classifySeconds (pairDelta (m1, m2)) = 3 then 1 else 0]) := by
  refine ⟨?_, ?_, ?_, ?_, ?_, classifySeconds_iff, ?_⟩
  · simp [classifySeconds]
  · rw [(classifySeconds_iff _).2.1]; norm_num
  · rw [(classifySeconds_iff _).2.1]; norm_num
  · rw [(classifySeconds_iff _).2.2.1]; norm_num
  · rw [(classifySeconds_iff _).2.2.2]; norm_num
  · intro m1 m2
    simp only [TimeFeature.get_interation_timings, adjacentPairs, List.tail_cons,
      List.zip_cons_cons, List.zip_nil_right, List.map_cons, List.map_nil,
      List.countP_cons, List.countP_nil]
    rcases classify_cases (pairDelta (m1, m2)) with h | h | h | h <;> simp [h]

/-- C8: aggregating an empty message list is total and yields, with the
fixed weekday keys, the seven all-zero rows, and with month bucketing, a
table with zero rows — for any actor list. -/
theorem claim_C8 :
    (∀ actors : List Actor,
      MessagesFeature.per_weekday ⟨[], actors⟩
        = WEEKDAYS.map (fun w => (w, [0, 0, 0]))) ∧
    (∀ actors : List Actor, MessagesFeature.per_month ⟨[], actors⟩ = []) :=
  ⟨fun _ => rfl, fun _ => rfl⟩

/-- C2 (code bug): in the per-actor fabrications table the cell under
`Qty_char_emoji` holds the laughs total and the cell under
`Qty_char_laughs` holds the emoji total: the source appends the row as
`[numbers, laughs, marks, emojis, count]` against the column order
`[numbers, emoji, marks, laughs, count]`.  At an actor whose single
message has one emoji character and no laughs, the `Qty_char_emoji` cell
is 0 although the actor's emoji total is 1, and the `Qty_char_laughs` cell
is 1 although the laughs total is 0. -/
theorem claim_C2_bug :
    cell ActorsFeature.fabrications_columns (ActorsFeature.fabricationsRow c2actor)
        "Qty_char_emoji" = some 0 ∧
    (c2actor.messages.map (fun m => get_length m.qty_char_emoji)).sum = 1 ∧
    cell ActorsFeature.fabrications_columns (ActorsFeature.fabricationsRow c2actor)
        "Qty_char_laughs" = some 1 ∧
    (c2actor.messages.map (fun m => get_length m.qty_char_laughs)).sum = 0 := by
  decide

/-- C4: on every chronologically ordered message list the four
interaction-interval counts are non-negative and sum to `n - 1`
(`Nat` subtraction: 0 for the empty list), and a list of length at most
one yields all-zero counts. -/
theorem claim_C4 (msgs : List Message) (h : Chrono msgs) :
    (TimeFeature.get_interation_timings msgs).sum = msgs.length - 1 ∧
    (msgs.length ≤ 1 → TimeFeature.get_interation_timings msgs = [0, 0, 0, 0]) := by
  constructor
  · have hlen : ((adjacentPairs msgs).map pairDelta).length = msgs.length - 1 := by
      have hz := List.length_zip msgs msgs.tail
      simp only [List.length_map, adjacentPairs]
      simp only [List.length_tail] at hz
      omega
    have hsum := countP_classify_sum ((adjacentPairs msgs).map pairDelta)
    simp only [TimeFeature.get_interation_timings, List.sum_cons, List.sum_nil]
    omega
  · intro hle
    match msgs with
    | [] => rfl
    | [m] => rfl
    | m1 :: m2 :: t => simp at hle

/-- C5: the weekday-bucketed aggregation always has exactly the seven
weekday names, Sunday first, as its row keys, in that order, and a weekday
no message falls on still gets a row, with zero counts. -/
theorem claim_C5 (chat : Chat) :
    (MessagesFeature.per_weekday chat).map Prod.fst = WEEKDAYS ∧
    (∀ w, w ∈ WEEKDAYS →
      (∀ m ∈ chat.messages, m.created_at.weekdayName ≠ w) →
      (w, ([0, 0, 0] : List Nat)) ∈ MessagesFeature.per_weekday chat) := by
  constructor
  · rfl
  · intro w hw hnone
    have hfil : chat.messages.filter
        (fun m => decide (m.created_at.weekdayName = w)) = [] := by
      rw [List.filter_eq_nil_iff]
      intro m hm
      simpa using hnone m hm
    refine List.mem_map.mpr ⟨w, hw, ?_⟩
    rw [hfil]
    rfl

/-- C5 witness: with no messages at all, Sunday is a key and its row is
all zero. -/
theorem claim_C5_witness :
    "Sunday" ∈ WEEKDAYS ∧
    ("Sunday", ([0, 0, 0] : List Nat)) ∈ MessagesFeature.per_weekday ⟨[], []⟩ :=
  ⟨by decide, (claim_C5 ⟨[], []⟩).2 "Sunday" (by decide) (by decide)⟩

/-- C4 witness: a concrete chronological two-message list, 25 s apart. -/
theorem claim_C4_witness :
    Chrono [wMsgA, wMsgB] ∧
    ((TimeFeature.get_interation_timings [wMsgA, wMsgB]).sum
        = ([wMsgA, wMsgB] : List Message).length - 1 ∧
      (([wMsgA, wMsgB] : List Message).length ≤ 1 →
        TimeFeature.get_interation_timings [wMsgA, wMsgB] = [0, 0, 0, 0])) :=
  ⟨by decide, claim_C4 [wMsgA, wMsgB] (by decide)⟩

/-- C6: the month-bucketed aggregation lists its row keys in first-seen
order along the message stream, and when the input is chronologically
non-decreasing that order is strictly chronological on `(year, month)` —
without any sorting step in the definition. -/
theorem claim_C6 (chat : Chat) (h : Chrono chat.messages) :
    (MessagesFeature.per_month chat).map Prod.fst
        = firstSeen (chat.messages.map (fun m => monthKey m.created_at)) ∧
    List.Pairwise pairLt ((MessagesFeature.per_month chat).map Prod.fst) := by
  have hkeys : (MessagesFeature.per_month chat).map Prod.fst
      = firstSeen (chat.messages.map (fun m => monthKey m.created_at)) := by
    simp [MessagesFeature.per_month, groupBy, List.map_map, Function.comp_def]
  refine ⟨hkeys, ?_⟩
  rw [hkeys]
  exact pairwise_lt_firstSeen
    (fun a b (hab : pairLe a b) hne => pairLe_ne_lt hab hne) _
    (List.Pairwise.map _ (fun a b hab => monthKey_mono hab) h)

/-- C6 witness: a chat with a January message then a March message. -/
theorem claim_C6_witness :
    Chrono w6chat.messages ∧
    ((MessagesFeature.per_month w6chat).map Prod.fst
        = firstSeen (w6chat.messages.map (fun m => monthKey m.created_at)) ∧
      List.Pairwise pairLt ((MessagesFeature.per_month w6chat).map Prod.fst)) :=
  ⟨by decide, claim_C6 w6chat (by decide)⟩

/-- C7 counterexample: two messages of the same month bucket, 100 s apart.
Swapping them is a permutation that keeps every message in its bucket, yet
the interaction-interval row of the bucket changes (the 100 s delta
becomes a -100 s delta): interval counts are adjacency-dependent, not
order-insensitive. -/
theorem claim_C7_counterexample :
    ([c7m2, c7m1] : List Message).Perm [c7m1, c7m2] ∧
    monthKey c7m1.created_at = monthKey c7m2.created_at ∧
    TimeFeature.interaction_interval ⟨[c7m1, c7m2], []⟩
      = [((1, 1), [0, 0, 1, 0, 2])] ∧
    TimeFeature.interaction_interval ⟨[c7m2, c7m1], []⟩
      = [((1, 1), [1, 0, 0, 0, 2])] ∧
    TimeFeature.interaction_interval ⟨[c7m1, c7m2], []⟩
      ≠ TimeFeature.interaction_interval ⟨[c7m2, c7m1], []⟩ := by
  have h1 : TimeFeature.interaction_interval ⟨[c7m1, c7m2], []⟩
      = [((1, 1), [0, 0, 1, 0, 2])] := by
    simp [TimeFeature.interaction_interval, TimeFeature.get_interation_timings,
      groupBy, firstSeen, adjacentPairs, pairDelta, classifySeconds,
      DateTime.toSeconds, toOrdinal, daysBeforeMonth, monthKey, c7m1, c7m2, mkMsg,
      List.countP_cons, List.countP_nil]
    norm_num
  have h2 : TimeFeature.interaction_interval ⟨[c7m2, c7m1], []⟩
      = [((1, 1), [1, 0, 0, 0, 2])] := by
    simp [TimeFeature.interaction_interval, TimeFeature.get_interation_timings,
      groupBy, firstSeen, adjacentPairs, pairDelta, classifySeconds,
      DateTime.toSeconds, toOrdinal, daysBeforeMonth, monthKey, c7m1, c7m2, mkMsg,
      List.countP_cons, List.countP_nil]
    norm_num
  refine ⟨by decide, by decide, h1, h2, ?_⟩
  rw [h1, h2]
  decide

/-- C7 (amended): within a bucket, the sum-and-count row reductions
(counter-length sums, occurrence counts, message counts) are insensitive
to message order — any permutation of the input leaves the per-month row
of every bucket and the per-actor fabrications row unchanged — but the
interaction-interval counts are not (see the counterexample). -/
theorem claim_C7_amended (l1 l2 : List Message) (hp : l1.Perm l2)
    (k : Nat × Nat) (name : String) :
    messagesRow (l1.filter (fun m => decide (monthKey m.created_at = k)))
      = messagesRow (l2.filter (fun m => decide (monthKey m.created_at = k))) ∧
    ActorsFeature.fabricationsRow ⟨name, l1⟩
      = ActorsFeature.fabricationsRow ⟨name, l2⟩ := by
  have hf := hp.filter (fun m => decide (monthKey m.created_at = k))
  constructor
  · unfold messagesRow
    rw [(hf.map (fun m => m.qty_char_net.length)).sum_eq,
      (hf.map (fun m => m.qty_char_text.length)).sum_eq, hf.length_eq]
  · unfold ActorsFeature.fabricationsRow
    simp only
    rw [(hp.map (fun m => get_length m.qty_char_numbers)).sum_eq,
      (hp.map (fun m => get_length m.qty_char_laughs)).sum_eq,
      (hp.map (fun m => get_length m.qty_char_marks)).sum_eq,
      (hp.map (fun m => get_length m.qty_char_emoji)).sum_eq,
      hp.length_eq]

/-- C7 amended witness: swapping the two same-bucket messages leaves the
sum-based rows unchanged. -/
theorem claim_C7_amended_witness :
    ([c7m2, c7m1] : List Message).Perm [c7m1, c7m2] ∧
    (messagesRow (([c7m2, c7m1] : List Message).filter
        (fun m => decide (monthKey m.created_at = (1, 1))))
      = messagesRow (([c7m1, c7m2] : List Message).filter
        (fun m => decide (monthKey m.created_at = (1, 1)))) ∧
    ActorsFeature.fabricationsRow ⟨"A", [c7m2, c7m1]⟩
      = ActorsFeature.fabricationsRow ⟨"A", [c7m1, c7m2]⟩) :=
  ⟨by decide, claim_C7_amended [c7m2, c7m1] [c7m1, c7m2] (by decide) (1, 1) "A"⟩

/-- C1 counterexample: actor A sends at 0 s, actor B at 40 s, actor A
again at 50 s.  The actor-sequence-local delta for A's second message
would be 50 s (fast), but the source counts the delta against the
wall-clock-adjacent message of actor B, 10 s (super-fast): the claim's
actor-local reading is false of the code. -/
theorem claim_C1_counterexample :
    ActorsFeature.interactionCounts c1msgs "A" = [1, 0, 0, 0] ∧
    spec_actor_local_interval_counts c1msgs "A" = [0, 1, 0, 0] ∧
    ActorsFeature.interactionCounts c1msgs "A"
      ≠ spec_actor_local_interval_counts c1msgs "A" := by
  have h1 : ActorsFeature.interactionCounts c1msgs "A" = [1, 0, 0, 0] := by
    simp [ActorsFeature.interactionCounts, adjacentPairs, pairDelta,
      classifySeconds, DateTime.toSeconds, toOrdinal, daysBeforeMonth,
      c1msgs, mkMsg, List.countP_cons, List.countP_nil]
    norm_num
  have h2 : spec_actor_local_interval_counts c1msgs "A" = [0, 1, 0, 0] := by
    simp [spec_actor_local_interval_counts, TimeFeature.get_interation_timings,
      adjacentPairs, pairDelta, classifySeconds, DateTime.toSeconds, toOrdinal,
      daysBeforeMonth, c1msgs, mkMsg, List.countP_cons, List.countP_nil]
    norm_num
  refine ⟨h1, h2, ?_⟩
  rw [h1, h2]
  decide

/-- C1 (amended): in the actor-scoped interaction-interval aggregation,
the delta counted for an actor's message at position i+1 is taken against
the wall-clock-adjacent preceding message `chat.messages[i]`, whichever
actor sent it — not against the actor's own previous message in the
actor-filtered subsequence. -/
theorem claim_C1_amended (msgs : List Message) (actor : String) :
    ActorsFeature.interactionCounts msgs actor
      = spec_wall_clock_interval_counts msgs actor := by
  unfold ActorsFeature.interactionCounts spec_wall_clock_interval_counts
  simp only [List.countP_map, List.countP_filter, Function.comp_def]
  rw [countP_adjacentPairs, countP_adjacentPairs, countP_adjacentPairs,
    countP_adjacentPairs]

/-- C9: the actor Top-N ranking is deterministic (it depends only on the
actor table), ranking with start 0 and end the table length drops no row
and returns the rows sorted descending by the full column tuple with
left-to-right tie-breaking (`RowOrder`), and out-of-range start/end
values clamp to the table bounds instead of erroring. -/
theorem claim_C9 (chat : Chat) :
    (∀ c : Chat, c.actors = chat.actors → ∀ s e : Int,
      ActorsFeature.by_activity c s e = ActorsFeature.by_activity chat s e) ∧
    (ActorsFeature.by_activity chat 0
        ((ActorsFeature.by_activity_table chat).length : Int)).Perm
      (ActorsFeature.by_activity_table chat) ∧
    List.Sorted RowOrder (ActorsFeature.by_activity chat 0
      ((ActorsFeature.by_activity_table chat).length : Int)) ∧
    (∀ s e : Int, s ≤ -((ActorsFeature.by_activity_table chat).length : Int) →
      ActorsFeature.by_activity chat s e = ActorsFeature.by_activity chat 0 e) ∧
    (∀ s e : Int, ((ActorsFeature.by_activity_table chat).length : Int) ≤ e →
      ActorsFeature.by_activity chat s e
        = ActorsFeature.by_activity chat s
            ((ActorsFeature.by_activity_table chat).length : Int)) := by
  have hperm :=
    List.perm_insertionSort RowOrder (ActorsFeature.by_activity_table chat)
  have hlen :
      (List.insertionSort RowOrder (ActorsFeature.by_activity_table chat)).length
        = (ActorsFeature.by_activity_table chat).length := hperm.length_eq
  have hfull : ActorsFeature.by_activity chat 0
        ((ActorsFeature.by_activity_table chat).length : Int)
      = List.insertionSort RowOrder (ActorsFeature.by_activity_table chat) := by
    unfold ActorsFeature.by_activity pySlice pyIndex
    rw [hlen]
    have hc : ¬ ((ActorsFeature.by_activity_table chat).length : Int) < 0 := by
      omega
    simp [hc]
  refine ⟨?_, ?_, ?_, ?_, ?_⟩
  · intro c hc s e
    unfold ActorsFeature.by_activity ActorsFeature.by_activity_table
    rw [hc]
  · rw [hfull]
    exact hperm
  · rw [hfull]
    exact List.sorted_insertionSort RowOrder _
  · intro s e hs
    unfold ActorsFeature.by_activity pySlice
    have hidx :
        pyIndex (List.insertionSort RowOrder
          (ActorsFeature.by_activity_table chat)).length s
        = pyIndex (List.insertionSort RowOrder
          (ActorsFeature.by_activity_table chat)).length 0 := by
      unfold pyIndex
      rw [hlen]
      split_ifs <;> omega
    rw [hidx]
  · intro s e he
    unfold ActorsFeature.by_activity pySlice
    have hidx :
        pyIndex (List.insertionSort RowOrder
          (ActorsFeature.by_activity_table chat)).length e
        = pyIndex (List.insertionSort RowOrder
          (ActorsFeature.by_activity_table chat)).length
            ((ActorsFeature.by_activity_table chat).length : Int) := by
      unfold pyIndex
      rw [hlen]
      split_ifs <;> omega
    rw [hidx]

/-- C9 witness: a two-actor chat; start -5 (below -2) clamps like 0 and
end 100 (above 2) clamps like the table length. -/
theorem claim_C9_witness :
    ((Chat.mk [wMsgA] w9chat.actors).actors = w9chat.actors ∧
      ActorsFeature.by_activity ⟨[wMsgA], w9chat.actors⟩ 0 2
        = ActorsFeature.by_activity w9chat 0 2) ∧
    ((-5 : Int) ≤ -((ActorsFeature.by_activity_table w9chat).length : Int) ∧
      ActorsFeature.by_activity w9chat (-5) 1
        = ActorsFeature.by_activity w9chat 0 1) ∧
    (((ActorsFeature.by_activity_table w9chat).length : Int) ≤ 100 ∧
      ActorsFeature.by_activity w9chat 0 100
        = ActorsFeature.by_activity w9chat 0
            ((ActorsFeature.by_activity_table w9chat).length : Int)) :=
  ⟨⟨by decide, (claim_C9 w9chat).1 ⟨[wMsgA], w9chat.actors⟩ (by decide) 0 2⟩,
    ⟨by decide, (claim_C9 w9chat).2.2.2.1 (-5) 1 (by decide)⟩,
    ⟨by decide, (claim_C9 w9chat).2.2.2.2 0 100 (by decide)⟩⟩

/-- C10: every modelled feature aggregation reads only the first chat of
its chat list — replacing the remaining chats never changes the output —
and an empty chat list yields no table (the source raises `IndexError`),
so each aggregation presupposes a non-empty chat list. -/
theorem claim_C10 :
    (∀ (c : Chat) (r r2 : List Chat),
      MessagesFeature.per_month_feature (c :: r)
          = MessagesFeature.per_month_feature (c :: r2) ∧
      MessagesFeature.per_weekday_feature (c :: r)
          = MessagesFeature.per_weekday_feature (c :: r2) ∧
      TimeFeature.interaction_interval_feature (c :: r)
          = TimeFeature.interaction_interval_feature (c :: r2) ∧
      ActorsFeature.interaction_interval_feature (c :: r)
          = ActorsFeature.interaction_interval_feature (c :: r2) ∧
      ActorsFeature.fabrications_feature (c :: r)
          = ActorsFeature.fabrications_feature (c :: r2) ∧
      (∀ s e : Int, ActorsFeature.by_activity_feature (c :: r) s e
          = ActorsFeature.by_activity_feature (c :: r2) s e)) ∧
    MessagesFeature.per_month_feature [] = none ∧
    MessagesFeature.per_weekday_feature [] = none ∧
    TimeFeature.interaction_interval_feature [] = none ∧
    ActorsFeature.interaction_interval_feature [] = none ∧
    ActorsFeature.fabrications_feature [] = none ∧
    (∀ s e : Int, ActorsFeature.by_activity_feature [] s e = none) ∧
    (∀ (c : Chat) (r : List Chat),
      (MessagesFeature.per_month_feature (c :: r)).isSome) :=
  ⟨fun _ _ _ => ⟨rfl, rfl, rfl, rfl, rfl, fun _ _ => rfl⟩,
    rfl, rfl, rfl, rfl, rfl, fun _ _ => rfl, fun _ _ => rfl⟩
